import Mathlib

set_option autoImplicit false

namespace RuneHistory

/-- A Python value as used by the mongo adapter: scalars, lists and
string-or-value-keyed dictionaries.  `vobjectId` models `bson.ObjectId`
(an opaque backend-generated identifier wrapping its hex string). -/
inductive PyV where
  | vnull
  | vbool (b : Bool)
  | vint (n : Int)
  | vstr (s : String)
  | vobjectId (s : String)
  | vlist (xs : List PyV)
  | vdict (kvs : List (PyV × PyV))
  deriving BEq, Repr

/-- Error outcomes of the embedded operations.  Each constructor models one
exception raised (or propagated) by the source:
`duplicateKeyError` is pymongo's `DuplicateKeyError`,
`duplicateError` is the domain-level `DuplicateError('Duplicate record')`,
`keyError`/`indexError`/`typeError` are the Python builtins,
`unsupportedCondition` is `raise Exception('Unhandled condition')`
(mongo.py:122), the failure the spec names `UnsupportedConditionError`, and
`unknownRole` is `ValueError('Unknown user type: ...')` (auth.py:49), the
failure the spec names `UnknownRoleError`. -/
inductive Err where
  | duplicateKeyError
  | duplicateError
  | keyError (k : String)
  | indexError
  | typeError
  | unsupportedCondition
  | unknownRole (t : String)
  deriving DecidableEq, Repr

/-- Python truthiness (`bool(v)`) on the embedded value fragment. -/
def pyFalsy : PyV → Bool
  | .vnull => true
  | .vbool b => !b
  | .vint n => n == 0
  | .vstr s => s == ""
  | .vobjectId _ => false
  | .vlist xs => xs.isEmpty
  | .vdict kvs => kvs.isEmpty

/-- Python `'{}'.format(v)` / `str(v)` on the fragment the adapter can feed
to `'${}'.format(statement)`; container reprs are abbreviated since no
modelled behaviour depends on them. -/
def pyFormat : PyV → String
  | .vnull => "None"
  | .vbool true => "True"
  | .vbool false => "False"
  | .vint n => toString n
  | .vstr s => s
  | .vobjectId s => s
  | .vlist _ => "<list>"
  | .vdict _ => "<dict>"

/-- Python `==` between a condition's field entry (an arbitrary value) and
the adapter's `identifier` attribute (a `str` or `None`): strings compare by
value, `None` equals only `None`, and every cross-type comparison among the
types involved is false. -/
def pyEqIdent (f : PyV) (ident : Option String) : Bool :=
  match f, ident with
  | .vstr s, some i => s == i
  | .vnull, none => true
  | _, _ => false

/-- A Python `dict` with string keys, as the adapter's records are: an
association list whose key order is insertion order and whose keys are
unique (uniqueness is carried as a hypothesis where proofs need it). -/
abbrev Rec : Type := List (String × PyV)

/-- `r[k]` as a total lookup: the value at key `k`, if present. -/
def dget : Rec → String → Option PyV
  | [], _ => none
  | (k, v) :: r, key => if k = key then some v else dget r key

/-- `r.pop(k)`: remove the entry at key `k`, keeping the order of the rest. -/
def dpop : Rec → String → Rec
  | [], _ => []
  | (k, v) :: r, key => if k = key then r else (k, v) :: dpop r key

/-- `r[k] = v`: update the entry in place if the key exists, else append. -/
def dset : Rec → String → PyV → Rec
  | [], key, val => [(key, val)]
  | (k, v) :: r, key, val =>
      if k = key then (k, val) :: r else (k, v) :: dset r key val

/-- The keys of a record, in order. -/
def dkeys (r : Rec) : List String := r.map Prod.fst

/-- Python `dict` equality (`==`): the same keys mapped to the same values,
irrespective of insertion order. -/
def dictEq (a b : Rec) : Prop := ∀ k, dget a k = dget b k

/-- `d[k] = v` on a value-keyed dict (`vdict` entries); keys are compared
structurally, which agrees with Python `==` on the key types that occur. -/
def vdset : List (PyV × PyV) → PyV → PyV → List (PyV × PyV)
  | [], key, val => [(key, val)]
  | (k, v) :: r, key, val =>
      if k == key then (k, val) :: r else (k, v) :: vdset r key val

/-- `base.update(new)` on value-keyed dicts: fold the new entries in. -/
def vdUpdate (base new : List (PyV × PyV)) : List (PyV × PyV) :=
  new.foldl (fun acc kv => vdset acc kv.1 kv.2) base

namespace Mongo

/-- The adapter's `self.identifier` guarded by Python truthiness: the checks
`if self.identifier and ...` treat both `None` and the empty string as
unset. -/
def truthyIdent : Option String → Option String
  | none => none
  | some s => if s = "" then none else some s

/-- `MongoTableAdapter._record_to_id` (mongo.py:28-31): when an identifier is
configured and present in the record, move its value under the native key
`_id` (`record['_id'] = record.pop(self.identifier)`). -/
def record_to_id (ident : Option String) (record : Rec) : Rec :=
  match truthyIdent ident with
  | none => record
  | some i =>
      match dget record i with
      | none => record
      | some v => dset (dpop record i) "_id" v

/-- The decode-side normalisation of `_record_from_id`: `str(ObjectId)`
yields the id's string form; every other value is untouched. -/
def strObjId : PyV → PyV
  | .vobjectId s => .vstr s
  | v => v

/-- `MongoTableAdapter._record_from_id` (mongo.py:33-38): stringify an
`ObjectId` stored under `_id`, then rename `_id` back to the configured
identifier (`record[self.identifier] = record.pop('_id')`). -/
def record_from_id (ident : Option String) (record : Rec) : Rec :=
  let r1 :=
    match dget record "_id" with
    | some (.vobjectId s) => dset record "_id" (.vstr s)
    | _ => record
  match truthyIdent ident with
  | none => r1
  | some i =>
      match dget r1 "_id" with
      | none => r1
      | some v => dset (dpop r1 "_id") i v

/-- `d[k] = v` on the `{field: 0|1}` projection dict. -/
def pdset : List (String × Int) → String → Int → List (String × Int)
  | [], key, val => [(key, val)]
  | (k, v) :: r, key, val =>
      if k = key then (k, val) :: r else (k, v) :: pdset r key val

/-- `MongoTableAdapter._projection_from_list` (mongo.py:40-48): an empty or
absent field list gives the empty projection; otherwise each field equal to
the identifier is rewritten to `_id`, every listed field is included (`1`),
and `_id` is excluded (`0`) when not among the rewritten fields.  The
source's `field is self.identifier` identity test is modelled as string
equality, which is what CPython's interning makes it on these literals. -/
def projection_from_list (ident : Option String) (fields : Option (List String)) :
    List (String × Int) :=
  match fields with
  | none => []
  | some fs =>
      if fs.isEmpty then []
      else
        let fs2 := fs.map (fun field => if some field = ident then "_id" else field)
        let projection := fs2.foldl (fun acc field => pdset acc field 1) []
        if "_id" ∈ fs2 then projection else pdset projection "_id" 0

mutual

/-- `MongoTableAdapter._parse_conditions` (mongo.py:88-96): a falsy
`conditions` value (`None` or an empty list) yields the empty dict;
otherwise the parsed operands are gathered under the `'$' + statement`
combinator key.  The result is the entry list of the returned dict.
A non-falsy, non-list argument cannot be iterated and is modelled as the
`TypeError` Python would raise. -/
def parse_conditions (ident : Option String) (conditions : PyV) (statement : String) :
    Except Err (List (PyV × PyV)) :=
  if pyFalsy conditions then .ok []
  else
    match conditions with
    | .vlist cs => do
        let parsed ← parse_condition_elems ident cs
        .ok [(.vstr ("$" ++ statement), .vlist parsed)]
    | _ => .error .typeError
termination_by sizeOf conditions
decreasing_by all_goals (simp_wf <;> omega)

/-- The list comprehension inside `_parse_conditions`: parse each condition
in order, propagating the first raised exception. -/
def parse_condition_elems (ident : Option String) (cs : List PyV) :
    Except Err (List PyV) :=
  match cs with
  | [] => .ok []
  | c :: rest => do
      let p ← parse_condition ident c
      let ps ← parse_condition_elems ident rest
      .ok (p :: ps)
termination_by sizeOf cs
decreasing_by all_goals (simp_wf <;> omega)

/-- `MongoTableAdapter._parse_condition` (mongo.py:98-103): dispatch on the
condition's runtime type; a value that is neither a list nor a dict falls
off the end of the function and returns Python `None`. -/
def parse_condition (ident : Option String) (condition : PyV) : Except Err PyV :=
  match condition with
  | .vlist items => (parse_condition_list ident items).map .vdict
  | .vdict kvs => (parse_condition_dict_items ident kvs []).map .vdict
  | _ => .ok .vnull
termination_by sizeOf condition
decreasing_by all_goals (simp_wf <;> omega)

/-- `MongoTableAdapter._parse_condition_list` (mongo.py:105-122): the key is
`condition[0]`, rewritten to `_id` when it equals the identifier (an empty
list hits `condition[0]` and raises `IndexError`).  A 2-list is shorthand
equality, unless its second element is a dict, which is parsed as a nested
condition dict.  A 3-list maps the five comparison operator tokens to their
native `$`-operators.  Every other shape raises
`Exception('Unhandled condition')`. -/
def parse_condition_list (ident : Option String) (condition : List PyV) :
    Except Err (List (PyV × PyV)) :=
  match condition with
  | [] => .error .indexError
  | c0 :: rest =>
      let key := if pyEqIdent c0 ident then PyV.vstr "_id" else c0
      match rest with
      | [c1] =>
          match c1 with
          | .vdict kvs => parse_condition_dict_items ident kvs []
          | _ => .ok [(key, .vdict [(.vstr "$eq", c1)])]
      | [op, c2] =>
          match op with
          | .vstr "=" => .ok [(key, .vdict [(.vstr "$eq", c2)])]
          | .vstr ">" => .ok [(key, .vdict [(.vstr "$gt", c2)])]
          | .vstr ">=" => .ok [(key, .vdict [(.vstr "$gte", c2)])]
          | .vstr "<" => .ok [(key, .vdict [(.vstr "$lt", c2)])]
          | .vstr "<=" => .ok [(key, .vdict [(.vstr "$lte", c2)])]
          | _ => .error .unsupportedCondition
      | _ => .error .unsupportedCondition
termination_by sizeOf condition
decreasing_by all_goals (simp_wf <;> omega)

/-- The loop body of `MongoTableAdapter._parse_condition_dict`
(mongo.py:124-129): starting from the empty dict, `update` in the
translation of each `statement -> sub_conditions` entry in order. -/
def parse_condition_dict_items (ident : Option String) (kvs : List (PyV × PyV))
    (acc : List (PyV × PyV)) : Except Err (List (PyV × PyV)) :=
  match kvs with
  | [] => .ok acc
  | (statement, sub) :: rest => do
      let entries ← parse_conditions ident sub (pyFormat statement)
      parse_condition_dict_items ident rest (vdUpdate acc entries)
termination_by sizeOf kvs
decreasing_by all_goals (simp_wf <;> omega)

end

/-- `MongoTableAdapter._parse_condition_dict` (mongo.py:124-129), as the
entry list of the dict it returns. -/
def parse_condition_dict (ident : Option String) (kvs : List (PyV × PyV)) :
    Except Err (List (PyV × PyV)) :=
  parse_condition_dict_items ident kvs []

/-- The `where` argument of `find`/`find_one` (`typing.List` defaulting to
`None`), as the value handed to `_parse_conditions`. -/
def whereArg : Option (List PyV) → PyV
  | none => .vnull
  | some cs => .vlist cs

/-- What one call to pymongo `Collection.insert_one` does, abstracted over
the backend's decision: either the uniqueness constraint fires
(`DuplicateKeyError`), or the write succeeds and the driver has put a
backend-generated `_id` into the document when it had none. -/
inductive InsertOutcome where
  | dup
  | ok (assigned : PyV)
  deriving Repr

/-- pymongo `Collection.insert_one` under a fixed backend outcome. -/
def backend_insert_one (outcome : InsertOutcome) (record : Rec) : Except Err Rec :=
  match outcome with
  | .dup => .error .duplicateKeyError
  | .ok assigned =>
      .ok (if (dget record "_id").isSome then record else dset record "_id" assigned)

/-- `MongoTableAdapter.insert` (mongo.py:50-58): encode the record via
`_record_to_id`, read `record['_id']` (a `KeyError` when absent), drop the
key when it is `None`, call the backend; a backend `DuplicateKeyError` is
caught and re-raised as the domain `DuplicateError`; on success the written
record is decoded with `_record_from_id` and returned. -/
def insert (ident : Option String) (outcome : InsertOutcome) (record : Rec) :
    Except Err Rec :=
  let r1 := record_to_id ident record
  match dget r1 "_id" with
  | none => .error (.keyError "_id")
  | some v =>
      let r2 := match v with | .vnull => dpop r1 "_id" | _ => r1
      match backend_insert_one outcome r2 with
      | .error .duplicateKeyError => .error .duplicateError
      | .error e => .error e
      | .ok stored => .ok (record_from_id ident stored)

/-- The arguments `MongoTableAdapter.find_one` hands to the backend's
`Collection.find_one`: the translated filter and, verbatim, the caller's
`fields` list as the projection. -/
structure FindOneCall where
  filter : List (PyV × PyV)
  projection : Option (List String)
  deriving Repr

/-- `MongoTableAdapter.find_one` (mongo.py:60-69): translate `where` with
`_parse_conditions` and issue a single-result query, passing
`projection=fields` untranslated. -/
def find_one (ident : Option String) (whereC : Option (List PyV))
    (fields : Option (List String)) : Except Err FindOneCall := do
  let parsed_where ← parse_conditions ident (whereArg whereC) "and"
  .ok { filter := parsed_where, projection := fields }

/-- pymongo's sort direction constants. -/
def ASCENDING : Int := 1

/-- pymongo's sort direction constant for descending order. -/
def DESCENDING : Int := -1

/-- The query `MongoTableAdapter.find` builds on the backend cursor: the
translated filter, the caller's `fields` passed verbatim as the projection,
the limit, the skip when an offset was supplied, and the translated sort
pairs when an order was supplied. -/
structure FindCall where
  filter : List (PyV × PyV)
  projection : Option (List String)
  limit : Int
  skip : Option Int
  sort : Option (List (String × Int))
  deriving Repr

/-- `MongoTableAdapter.find` (mongo.py:71-86): translate `where`, chain
`.limit(limit)` always, `.skip(offset)` only when `offset is not None`, and
`.sort` only when `order is not None`, mapping each `[field, direction]`
pair to `(field, DESCENDING)` when the direction is `'desc'` and
`(field, ASCENDING)` otherwise (the `is 'desc'` identity test is modelled
as string equality, which CPython's interning makes it here). -/
def find (ident : Option String) (whereC : Option (List PyV))
    (fields : Option (List String)) (limit : Int) (offset : Option Int)
    (order : Option (List (String × String))) : Except Err FindCall := do
  let parsed_where ← parse_conditions ident (whereArg whereC) "and"
  .ok { filter := parsed_where
        projection := fields
        limit := limit
        skip := offset
        sort := order.map (List.map (fun item =>
          (item.1, if item.2 = "desc" then DESCENDING else ASCENDING))) }

/-- `find` as called without overriding `limit`: the signature's default is
`limit: int = 100`. -/
def find_default (ident : Option String) (whereC : Option (List PyV))
    (fields : Option (List String)) (offset : Option Int)
    (order : Option (List (String × String))) : Except Err FindCall :=
  find ident whereC fields 100 offset order

end Mongo

namespace Auth

/-- `runehistory_api.domain.models.auth.User` as the auth services read it:
only `username`, `type` (the role) and `id` are consulted; `password`
carries the stored hash. -/
structure User where
  username : String
  password : String
  type : String
  id : String
  deriving DecidableEq, Repr

/-- A permission grant: scope name to capability-token list, in insertion
order, exactly as the dict literals in `PermissionService.generate`. -/
abbrev Grant : Type := List (String × List String)

/-- `permissions.get(scope, None)`. -/
def sget : Grant → String → Option (List String)
  | [], _ => none
  | (k, v) :: r, key => if k = key then some v else sget r key

/-- `PermissionService.generate` (auth.py:37-49): a fixed table keyed on
`user.type`; `service` gets all four capabilities on accounts, highscores
and users; `guest` gets read/create on accounts and read on highscores;
any other type raises `ValueError('Unknown user type: ...')`. -/
def generate (user : User) : Except Err Grant :=
  if user.type = "service" then
    .ok [("accounts", ["r", "c", "u", "d"]),
         ("highscores", ["r", "c", "u", "d"]),
         ("users", ["r", "c", "u", "d"])]
  else if user.type = "guest" then
    .ok [("accounts", ["r", "c"]),
         ("highscores", ["r"])]
  else .error (.unknownRole user.type)

/-- `PermissionService.check_permission` (auth.py:51-58): false when the
scope is absent or its capability list is empty (falsy), false when the
list holds neither the wildcard nor the required capability, true
otherwise. -/
def check_permission (scope : String) (permissions : Grant) (required : String) :
    Bool :=
  match sget permissions scope with
  | none => false
  | some scope_perms =>
      if scope_perms.isEmpty then false
      else if "*" ∉ scope_perms ∧ required ∉ scope_perms then false
      else true

/-- `JwtService.generate_subject` (auth.py:87-92):
`'{}-{}_{}'.format(username, type, id)`. -/
def generate_subject (user : User) : String :=
  user.username ++ "-" ++ user.type ++ "_" ++ user.id

/-- The claim set `JwtService.make` hands to the `simplejwt` codec:
the secret, the payload's `aut` grant, and the registered claims. -/
structure Jwt where
  secret : String
  aut : Grant
  issuer : String
  subject : String
  issued_at : Nat
  valid_from : Nat
  valid_to : Nat

/-- `JwtService.make` (auth.py:67-85): wall-clock time is modelled as
microseconds since the epoch (`datetime.utcnow()` has microsecond
resolution and lies after 1970), so `int(...total_seconds())` is division
by 10^6 and `timedelta(minutes=10)` adds exactly 600 * 10^6 microseconds.
The grant comes from `PermissionService.generate`, the issuer is the
constant `'rh-api'` and the subject comes from `generate_subject`. -/
def make (secret : String) (user : User) (now_us : Nat) : Except Err Jwt := do
  let permissions ← generate user
  let now_ts := now_us / 1000000
  let expires_ts := (now_us + 600 * 1000000) / 1000000
  .ok { secret := secret
        aut := permissions
        issuer := "rh-api"
        subject := generate_subject user
        issued_at := now_ts
        valid_from := now_ts
        valid_to := expires_ts }

end Auth

/- Helper lemmas about the Python dict operations. -/

theorem dget_dset_self (r : Rec) (k : String) (v : PyV) :
    dget (dset r k v) k = some v := by
  induction r with
  | nil => simp [dset, dget]
  | cons kv rest ih =>
      obtain ⟨a, b⟩ := kv
      by_cases hak : a = k <;> simp [dset, dget, hak, ih]

theorem dget_dset_ne (r : Rec) (k j : String) (v : PyV) (h : j ≠ k) :
    dget (dset r k v) j = dget r j := by
  induction r with
  | nil => simp [dset, dget, Ne.symm h]
  | cons kv rest ih =>
      obtain ⟨a, b⟩ := kv
      by_cases hak : a = k
      · subst hak
        simp [dset, dget, Ne.symm h]
      · by_cases haj : a = j
        · subst haj
          simp [dset, dget, hak]
        · simp [dset, dget, hak, haj, ih]

theorem dget_dpop_ne (r : Rec) (k j : String) (h : j ≠ k) :
    dget (dpop r k) j = dget r j := by
  induction r with
  | nil => simp [dpop, dget]
  | cons kv rest ih =>
      obtain ⟨a, b⟩ := kv
      by_cases hak : a = k
      · subst hak
        simp [dpop, dget, Ne.symm h]
      · by_cases haj : a = j
        · subst haj
          simp [dpop, dget, hak]
        · simp [dpop, dget, hak, haj, ih]

theorem dget_eq_none_of_not_mem (r : Rec) (k : String) (h : k ∉ dkeys r) :
    dget r k = none := by
  induction r with
  | nil => simp [dget]
  | cons kv rest ih =>
      obtain ⟨a, b⟩ := kv
      simp only [dkeys, List.map_cons, List.mem_cons] at h
      push_neg at h
      simp [dget, Ne.symm h.1, ih (by simpa [dkeys] using h.2)]

theorem dget_none_not_memkeys (r : Rec) (k : String) (h : dget r k = none) :
    k ∉ dkeys r := by
  induction r with
  | nil => simp [dkeys]
  | cons kv rest ih =>
      obtain ⟨a, b⟩ := kv
      by_cases hak : a = k
      · simp [dget, hak] at h
      · simp only [dget, if_neg hak] at h
        simp [dkeys, Ne.symm hak]
        simpa [dkeys] using ih h

theorem dget_dpop_self (r : Rec) (k : String) (h : (dkeys r).Nodup) :
    dget (dpop r k) k = none := by
  induction r with
  | nil => simp [dpop, dget]
  | cons kv rest ih =>
      obtain ⟨a, b⟩ := kv
      simp only [dkeys, List.map_cons, List.nodup_cons] at h
      by_cases hak : a = k
      · subst hak
        simp only [dpop, if_pos rfl]
        exact dget_eq_none_of_not_mem rest a (by simpa [dkeys] using h.1)
      · simp [dpop, dget, hak, ih (by simpa [dkeys] using h.2)]

theorem dget_mem (r : Rec) (k : String) (v : PyV) (h : dget r k = some v) :
    (k, v) ∈ r := by
  induction r with
  | nil => simp [dget] at h
  | cons kv rest ih =>
      obtain ⟨a, b⟩ := kv
      by_cases hak : a = k
      · subst hak
        simp [dget] at h
        simp [h]
      · simp only [dget, if_neg hak] at h
        simp [ih h]

theorem dset_absent (r : Rec) (k : String) (v : PyV) (h : dget r k = none) :
    dset r k v = r ++ [(k, v)] := by
  induction r with
  | nil => simp [dset]
  | cons kv rest ih =>
      obtain ⟨a, b⟩ := kv
      by_cases hak : a = k
      · simp [dget, hak] at h
      · simp only [dget, if_neg hak] at h
        simp [dset, hak, ih h]

theorem dget_append (l m : Rec) (k : String) :
    dget (l ++ m) k = match dget l k with | some v => some v | none => dget m k := by
  induction l with
  | nil => simp [dget]
  | cons kv rest ih =>
      obtain ⟨a, b⟩ := kv
      by_cases hak : a = k <;> simp [dget, hak, ih]

theorem dpop_append_absent (l m : Rec) (k : String) (h : dget l k = none) :
    dpop (l ++ m) k = l ++ dpop m k := by
  induction l with
  | nil => simp [dpop]
  | cons kv rest ih =>
      obtain ⟨a, b⟩ := kv
      by_cases hak : a = k
      · simp [dget, hak] at h
      · simp only [dget, if_neg hak] at h
        simp [dpop, hak, ih h]

theorem dkeys_dpop_sublist (r : Rec) (k : String) :
    (dkeys (dpop r k)).Sublist (dkeys r) := by
  induction r with
  | nil => simp [dpop, dkeys]
  | cons kv rest ih =>
      obtain ⟨a, b⟩ := kv
      by_cases hak : a = k
      · simp [dpop, hak, dkeys]
      · simpa [dpop, hak, dkeys] using ih

theorem nodup_dkeys_dpop (r : Rec) (k : String) (h : (dkeys r).Nodup) :
    (dkeys (dpop r k)).Nodup :=
  (dkeys_dpop_sublist r k).nodup h

theorem dkeys_dset_mem (r : Rec) (k : String) (v : PyV) (h : k ∈ dkeys r) :
    dkeys (dset r k v) = dkeys r := by
  induction r with
  | nil => simp [dkeys] at h
  | cons kv rest ih =>
      obtain ⟨a, b⟩ := kv
      by_cases hak : a = k
      · subst hak
        simp [dset, dkeys]
      · have h3 : k ∈ a :: dkeys rest := by
          simpa only [dkeys, List.map_cons] using h
        have hmem : k ∈ dkeys rest := by
          rcases List.mem_cons.mp h3 with h1 | h2
          · exact absurd h1.symm hak
          · exact h2
        simp only [dset, if_neg hak, dkeys, List.map_cons]
        rw [show List.map Prod.fst (dset rest k v) = dkeys (dset rest k v) from rfl,
          ih hmem]
        rfl

theorem nodup_dkeys_dset (r : Rec) (k : String) (v : PyV)
    (h : (dkeys r).Nodup) : (dkeys (dset r k v)).Nodup := by
  by_cases hmem : k ∈ dkeys r
  · rw [dkeys_dset_mem r k v hmem]
    exact h
  · rw [dset_absent r k v (dget_eq_none_of_not_mem r k hmem)]
    have : dkeys (r ++ [(k, v)]) = dkeys r ++ [k] := by simp [dkeys]
    rw [this]
    refine h.append (List.nodup_singleton k) ?_
    intro a ha hk
    rw [List.mem_singleton] at hk
    subst hk
    exact hmem ha

open Mongo Auth

/-- C3: translating a group combinator whose operand sequence is empty
yields the empty (match-all) filter and never an empty-combinator native
structure, both for the `_parse_conditions` entry point (where a `None` or
empty `where` also yields the empty filter) and for a `Group` written as a
condition dict with an empty operand list. -/
theorem empty_group_yields_empty_filter (ident : Option String)
    (statement combinator : String) :
    parse_conditions ident (whereArg none) statement = .ok [] ∧
    parse_conditions ident (.vlist []) statement = .ok [] ∧
    parse_condition ident (.vdict [(.vstr combinator, .vlist [])]) =
      .ok (.vdict []) ∧
    parse_condition_dict ident [(.vstr combinator, .vlist [])] = .ok [] := by
  refine ⟨?_, ?_, ?_, ?_⟩ <;>
    simp [parse_conditions, parse_condition, parse_condition_dict,
      parse_condition_dict_items, whereArg, pyFalsy, pyFormat, vdUpdate,
      bind, Except.bind, Except.map]

/-- C7: `PermissionService.generate` grants a `service` user all four
capabilities on accounts, highscores and users; a `guest` user only
read/create on accounts and read on highscores, with the users scope absent
so `check_permission` on `users` is false for every required capability;
every other role fails with the unknown-role error. -/
theorem generate_role_grants (u : User) :
    (u.type = "service" →
      generate u = .ok [("accounts", ["r", "c", "u", "d"]),
                        ("highscores", ["r", "c", "u", "d"]),
                        ("users", ["r", "c", "u", "d"])]) ∧
    (u.type = "guest" →
      generate u = .ok [("accounts", ["r", "c"]), ("highscores", ["r"])] ∧
      sget [("accounts", ["r", "c"]), ("highscores", ["r"])] "users" = none ∧
      ∀ required, check_permission "users"
        [("accounts", ["r", "c"]), ("highscores", ["r"])] required = false) ∧
    (u.type ≠ "service" → u.type ≠ "guest" →
      generate u = .error (.unknownRole u.type)) := by
  refine ⟨fun h => by simp [generate, h],
    fun h => ⟨by simp [generate, h], by simp [sget],
      fun required => by simp [check_permission, sget]⟩,
    fun h1 h2 => by simp [generate, h1, h2]⟩

/-- C7 witness: the three role cases at concrete users. -/
theorem generate_role_grants_witness :
    generate ⟨"svc", "x", "service", "1"⟩ =
      .ok [("accounts", ["r", "c", "u", "d"]),
           ("highscores", ["r", "c", "u", "d"]),
           ("users", ["r", "c", "u", "d"])] ∧
    generate ⟨"g", "x", "guest", "2"⟩ =
      .ok [("accounts", ["r", "c"]), ("highscores", ["r"])] ∧
    check_permission "users" [("accounts", ["r", "c"]), ("highscores", ["r"])]
      "r" = false ∧
    generate ⟨"a", "x", "admin", "3"⟩ = .error (.unknownRole "admin") :=
  ⟨(generate_role_grants ⟨"svc", "x", "service", "1"⟩).1 rfl,
   ((generate_role_grants ⟨"g", "x", "guest", "2"⟩).2.1 rfl).1,
   ((generate_role_grants ⟨"g", "x", "guest", "2"⟩).2.1 rfl).2.2 "r",
   (generate_role_grants ⟨"a", "x", "admin", "3"⟩).2.2 (by decide) (by decide)⟩

/-- C8: every claim set `JwtService.make` produces has the fixed issuer
`rh-api`, the subject `username-type_id`, the embedded grant of
`PermissionService.generate` for that user, and a validity window ending
exactly 600 seconds after its issued-at/valid-from timestamp. -/
theorem make_claim_set (secret : String) (u : User) (now_us : Nat) (jwt : Jwt)
    (h : make secret u now_us = .ok jwt) :
    jwt.issuer = "rh-api" ∧
    jwt.subject = u.username ++ "-" ++ u.type ++ "_" ++ u.id ∧
    generate u = .ok jwt.aut ∧
    jwt.issued_at = jwt.valid_from ∧
    jwt.valid_to = jwt.valid_from + 600 := by
  rcases hg : generate u with e | g
  · simp [make, hg, bind, Except.bind] at h
  · simp [make, hg, bind, Except.bind] at h
    subst h
    refine ⟨rfl, rfl, rfl, rfl, ?_⟩
    show (now_us + 600 * 1000000) / 1000000 = now_us / 1000000 + 600
    omega

/-- C8 witness: a concrete guest user at a concrete wall-clock time. -/
theorem make_claim_set_witness :
    ({ secret := "s", aut := [("accounts", ["r", "c"]), ("highscores", ["r"])],
       issuer := "rh-api", subject := "bob-guest_7", issued_at := 1,
       valid_from := 1, valid_to := 601 } : Jwt).issuer = "rh-api" ∧
    ({ secret := "s", aut := [("accounts", ["r", "c"]), ("highscores", ["r"])],
       issuer := "rh-api", subject := "bob-guest_7", issued_at := 1,
       valid_from := 1, valid_to := 601 } : Jwt).subject =
      "bob" ++ "-" ++ "guest" ++ "_" ++ "7" ∧
    generate ⟨"bob", "x", "guest", "7"⟩ =
      .ok ({ secret := "s", aut := [("accounts", ["r", "c"]), ("highscores", ["r"])],
             issuer := "rh-api", subject := "bob-guest_7", issued_at := 1,
             valid_from := 1, valid_to := 601 } : Jwt).aut ∧
    ({ secret := "s", aut := [("accounts", ["r", "c"]), ("highscores", ["r"])],
       issuer := "rh-api", subject := "bob-guest_7", issued_at := 1,
       valid_from := 1, valid_to := 601 } : Jwt).issued_at = 1 ∧
    ({ secret := "s", aut := [("accounts", ["r", "c"]), ("highscores", ["r"])],
       issuer := "rh-api", subject := "bob-guest_7", issued_at := 1,
       valid_from := 1, valid_to := 601 } : Jwt).valid_to = 1 + 600 := by
  have h := make_claim_set "s" ⟨"bob", "x", "guest", "7"⟩ 1234567
    { secret := "s", aut := [("accounts", ["r", "c"]), ("highscores", ["r"])],
      issuer := "rh-api", subject := "bob-guest_7", issued_at := 1,
      valid_from := 1, valid_to := 601 }
    (by simp [make, generate, generate_subject, bind, Except.bind])
  exact ⟨h.1, h.2.1, h.2.2.1, h.2.2.2.1, h.2.2.2.2⟩

/-- C10: when the encoded record carries no native `_id` key at all,
`insert` fails with the Python `KeyError` at `record['_id']` before any
backend call is made (the result is the same for every backend outcome),
and raises no domain-level error. -/
theorem insert_keyerror_without_native_key (ident : Option String)
    (outcome : InsertOutcome) (r : Rec)
    (h : dget (record_to_id ident r) "_id" = none) :
    insert ident outcome r = .error (.keyError "_id") := by
  unfold Mongo.insert
  simp [h]

/-- C2: for each of the five comparison operator tokens, a 3-element
condition list translates to exactly the corresponding (pairwise distinct)
native operator applied under the field, the field being rewritten to the
native `_id` key exactly when it equals the configured identifier; any
other operator token fails with the unsupported-condition error. -/
theorem condition_list_operator_mapping (ident : Option String) (f v : PyV)
    (op mop : String)
    (hmem : (op, mop) ∈ [("=", "$eq"), (">", "$gt"), (">=", "$gte"),
      ("<", "$lt"), ("<=", "$lte")]) :
    parse_condition_list ident [f, .vstr op, v] =
      .ok [(if pyEqIdent f ident then PyV.vstr "_id" else f,
            .vdict [(.vstr mop, v)])] ∧
    (["$eq", "$gt", "$gte", "$lt", "$lte"] : List String).Nodup ∧
    ∀ op2 : String, op2 ∉ (["=", ">", ">=", "<", "<="] : List String) →
      parse_condition_list ident [f, .vstr op2, v] =
        .error .unsupportedCondition := by
  refine ⟨?_, by decide, ?_⟩
  · fin_cases hmem <;> simp [parse_condition_list]
  · intro op2 hop
    simp only [List.mem_cons, List.not_mem_nil, or_false, not_or] at hop
    obtain ⟨h1, h2, h3, h4, h5⟩ := hop
    simp [parse_condition_list, h1, h2, h3, h4, h5]

/-- C2 witness: the `>` operator at a concrete condition, and a rejected
unknown operator. -/
theorem condition_list_operator_mapping_witness :
    parse_condition_list (some "id") [.vstr "id", .vstr ">", .vint 3] =
      .ok [(if pyEqIdent (.vstr "id") (some "id") then PyV.vstr "_id"
            else .vstr "id", .vdict [(.vstr "$gt", .vint 3)])] ∧
    parse_condition_list (some "id") [.vstr "id", .vstr "!=", .vint 3] =
      .error .unsupportedCondition :=
  ⟨(condition_list_operator_mapping (some "id") (.vstr "id") (.vint 3) ">"
      "$gt" (by simp)).1,
   (condition_list_operator_mapping (some "id") (.vstr "id") (.vint 3) ">"
      "$gt" (by simp)).2.2 "!=" (by simp)⟩

/-- C9 counterexample: a condition element that is neither a list nor a
dict is not rejected with an error; `_parse_condition` falls off the end
and silently returns Python `None`. -/
theorem parse_condition_scalar_returns_none :
    parse_condition (some "id") (.vint 5) = .ok .vnull ∧
    ∀ e : Err, parse_condition (some "id") (.vint 5) ≠ .error e := by
  constructor
  · simp [parse_condition]
  · intro e h
    simp [parse_condition] at h

/-- C9 amended: a list condition whose length is neither 2 nor 3 is
rejected with an error, but the translator is not total over arbitrary
condition elements: an element that is neither a list nor a dict is
silently mapped to a nil result (Python `None`) instead of being
rejected. -/
theorem condition_translator_totality (ident : Option String)
    (items : List PyV) (v : PyV)
    (h2 : items.length ≠ 2) (h3 : items.length ≠ 3) :
    (∃ e, parse_condition_list ident items = .error e) ∧
    ((∀ xs, v ≠ .vlist xs) → (∀ kvs, v ≠ .vdict kvs) →
      parse_condition ident v = .ok .vnull) := by
  constructor
  · match items with
    | [] => exact ⟨.indexError, by simp [parse_condition_list]⟩
    | [a] => exact ⟨.unsupportedCondition, by simp [parse_condition_list]⟩
    | [a, b] => exact absurd rfl h2
    | [a, b, c] => exact absurd rfl h3
    | a :: b :: c :: d :: rest =>
        exact ⟨.unsupportedCondition, by simp [parse_condition_list]⟩
  · intro hl hd
    cases v with
    | vlist xs => exact absurd rfl (hl xs)
    | vdict kvs => exact absurd rfl (hd kvs)
    | vnull => simp [parse_condition]
    | vbool b => simp [parse_condition]
    | vint n => simp [parse_condition]
    | vstr s => simp [parse_condition]
    | vobjectId s => simp [parse_condition]

/-- C9 amended witness: a 1-element list condition and a scalar element. -/
theorem condition_translator_totality_witness :
    (∃ e, parse_condition_list (some "id") [.vstr "a"] = .error e) ∧
    parse_condition (some "id") (.vint 7) = .ok .vnull :=
  ⟨(condition_translator_totality (some "id") [.vstr "a"] (.vint 7)
      (by decide) (by decide)).1,
   (condition_translator_totality (some "id") [.vstr "a"] (.vint 7)
      (by decide) (by decide)).2
     (fun xs => by simp) (fun kvs => by simp)⟩

theorem record_from_id_append (ident : Option String) (i : String)
    (hti : truthyIdent ident = some i) (x : Rec) (v : PyV)
    (hx : dget x "_id" = none) (hxi : dget x i = none)
    (hv : ∀ s, v ≠ PyV.vobjectId s) :
    record_from_id ident (x ++ [("_id", v)]) = x ++ [(i, v)] := by
  have hgid : dget (x ++ [("_id", v)]) "_id" = some v := by
    rw [dget_append, hx]
    simp [dget]
  have htail : dset (dpop (x ++ [("_id", v)]) "_id") i v = x ++ [(i, v)] := by
    rw [dpop_append_absent x [("_id", v)] "_id" hx]
    simp only [dpop, if_pos, List.append_nil, ite_true]
    exact dset_absent x i v hxi
  cases v with
  | vobjectId s => exact absurd rfl (hv s)
  | vnull =>
      simp only [record_from_id, hgid, hti]
      exact htail
  | vbool b =>
      simp only [record_from_id, hgid, hti]
      exact htail
  | vint n =>
      simp only [record_from_id, hgid, hti]
      exact htail
  | vstr s =>
      simp only [record_from_id, hgid, hti]
      exact htail
  | vlist xs =>
      simp only [record_from_id, hgid, hti]
      exact htail
  | vdict kvs =>
      simp only [record_from_id, hgid, hti]
      exact htail

theorem record_from_id_getid (ident : Option String) (i : String)
    (hti : truthyIdent ident = some i) (y : Rec) (a : PyV)
    (hy : dget y "_id" = some a) :
    dget (record_from_id ident y) i = some (strObjId a) := by
  cases a <;> simp [record_from_id, hy, hti, dget_dset_self, strObjId]

/-- C5: for every record with unique keys, no native `_id` field of its
own, no opaque backend-generated identifier values, and a non-nil value
under the logical identifier, decoding the encoding of the record gives
the record back under Python dict equality:
`_record_from_id(_record_to_id(r)) == r`. -/
theorem decode_encode_roundtrip (ident : Option String) (r : Rec)
    (hnodup : (dkeys r).Nodup)
    (hnoid : dget r "_id" = none)
    (hnoobj : ∀ kv ∈ r, ∀ s, Prod.snd kv ≠ PyV.vobjectId s)
    (hnonnil : ∀ i, ident = some i → dget r i ≠ some PyV.vnull) :
    dictEq (record_from_id ident (record_to_id ident r)) r := by
  cases hti : truthyIdent ident with
  | none =>
      intro k
      simp [record_to_id, record_from_id, hti, hnoid]
  | some i =>
      cases hgi : dget r i with
      | none =>
          intro k
          simp [record_to_id, record_from_id, hti, hgi, hnoid]
      | some v =>
          have hne : ¬i = "_id" := by
            intro hh
            rw [hh, hnoid] at hgi
            exact Option.noConfusion hgi
          have hpop_id : dget (dpop r i) "_id" = none := by
            rw [dget_dpop_ne r i "_id" (fun hh => hne hh.symm)]
            exact hnoid
          have henc : record_to_id ident r = dpop r i ++ [("_id", v)] := by
            simp only [record_to_id, hti, hgi]
            exact dset_absent _ _ _ hpop_id
          have hvnotobj : ∀ s, v ≠ PyV.vobjectId s :=
            fun s => hnoobj (i, v) (dget_mem r i v hgi) s
          have hpop_i : dget (dpop r i) i = none := dget_dpop_self r i hnodup
          have hdec : record_from_id ident (record_to_id ident r) =
              dpop r i ++ [(i, v)] := by
            rw [henc]
            exact record_from_id_append ident i hti (dpop r i) v hpop_id
              hpop_i hvnotobj
          rw [hdec]
          intro k
          by_cases hk : k = i
          · subst hk
            rw [dget_append, hpop_i, hgi]
            simp [dget]
          · rw [dget_append, dget_dpop_ne r i k hk]
            cases hgk : dget r k with
            | some w => rfl
            | none => simp [dget, Ne.symm hk]

/-- C5 witness: a two-field record with identifier `id` set to a string. -/
theorem decode_encode_roundtrip_witness :
    dictEq (record_from_id (some "id") (record_to_id (some "id")
        [("id", PyV.vstr "abc"), ("username", PyV.vstr "bob")]))
      [("id", PyV.vstr "abc"), ("username", PyV.vstr "bob")] :=
  decode_encode_roundtrip (some "id")
    [("id", PyV.vstr "abc"), ("username", PyV.vstr "bob")]
    (by decide) (by rfl)
    (by
      intro kv hkv s
      simp only [List.mem_cons, List.not_mem_nil, or_false] at hkv
      rcases hkv with rfl | rfl <;> simp)
    (by intro i hi; cases hi; simp [dget])

/-- C4: whenever the encoded record reaches the backend (it carries an
`_id` after encoding) and the backend reports a uniqueness violation,
`insert` fails with the domain-level `DuplicateError` and never with the
raw backend `DuplicateKeyError`; on success it returns the decoded stored
record, so that (for a configured identifier and a nil key dropped before
the write) the backend-assigned key is visible under the logical
identifier name, stringified when it is an `ObjectId`. -/
theorem insert_duplicate_and_decode (ident : Option String) (r : Rec)
    (v : PyV) (hw : dget (record_to_id ident r) "_id" = some v) :
    insert ident .dup r = .error .duplicateError ∧
    insert ident .dup r ≠ .error .duplicateKeyError ∧
    (∀ a, ∃ stored, insert ident (.ok a) r =
      .ok (record_from_id ident stored)) ∧
    (∀ i a, ident = some i → i ≠ "" → (dkeys r).Nodup → v = PyV.vnull →
      ∃ out, insert ident (.ok a) r = .ok out ∧
        dget out i = some (strObjId a)) := by
  have h1 : insert ident .dup r = .error .duplicateError := by
    unfold Mongo.insert
    simp [hw, backend_insert_one]
  refine ⟨h1, by rw [h1]; simp, ?_, ?_⟩
  · intro a
    cases v <;>
      (unfold Mongo.insert
       simp only [hw, backend_insert_one]
       exact ⟨_, rfl⟩)
  · intro i a hid hine hnodup hv
    subst hid
    subst hv
    have hti : truthyIdent (some i) = some i := by simp [truthyIdent, hine]
    have hnr1 : (dkeys (record_to_id (some i) r)).Nodup := by
      simp only [record_to_id, hti]
      cases hgi : dget r i with
      | none => exact hnodup
      | some w => exact nodup_dkeys_dset _ _ _ (nodup_dkeys_dpop _ _ hnodup)
    have hr2 : dget (dpop (record_to_id (some i) r) "_id") "_id" = none :=
      dget_dpop_self _ _ hnr1
    have hstored : backend_insert_one (.ok a)
        (dpop (record_to_id (some i) r) "_id") =
        .ok (dset (dpop (record_to_id (some i) r) "_id") "_id" a) := by
      simp [backend_insert_one, hr2]
    have hins : insert (some i) (.ok a) r =
        .ok (record_from_id (some i)
          (dset (dpop (record_to_id (some i) r) "_id") "_id" a)) := by
      unfold Mongo.insert
      simp only [hw, hstored]
    refine ⟨_, hins, ?_⟩
    exact record_from_id_getid (some i) i hti _ a (dget_dset_self _ _ _)

/-- C4 witness: a nil-keyed record whose insert either hits the uniqueness
constraint or succeeds with a backend-assigned `ObjectId`. -/
theorem insert_duplicate_and_decode_witness :
    insert (some "id") .dup [("id", PyV.vnull), ("username", PyV.vstr "bob")] =
      .error .duplicateError ∧
    ∃ out, insert (some "id") (.ok (PyV.vobjectId "abc"))
        [("id", PyV.vnull), ("username", PyV.vstr "bob")] = .ok out ∧
      dget out "id" = some (strObjId (PyV.vobjectId "abc")) :=
  ⟨(insert_duplicate_and_decode (some "id")
      [("id", PyV.vnull), ("username", PyV.vstr "bob")] PyV.vnull (by rfl)).1,
   (insert_duplicate_and_decode (some "id")
      [("id", PyV.vnull), ("username", PyV.vstr "bob")] PyV.vnull
      (by rfl)).2.2.2
     "id" (PyV.vobjectId "abc") rfl (by decide) (by decide) rfl⟩

/-- C6: every successful `find` call applies the requested limit (100 when
not overridden, witnessed by `find_default`), applies skip exactly when an
offset was supplied, and, when an order sequence is supplied, sorts by the
pairs in their given order with direction `desc` mapped to the descending
token and every other direction (in particular `asc`) to the ascending
token. -/
theorem find_limit_skip_order (ident : Option String)
    (whereC : Option (List PyV)) (fields : Option (List String))
    (limit : Int) (offset : Option Int)
    (order : Option (List (String × String))) (fc : FindCall)
    (h : find ident whereC fields limit offset order = .ok fc) :
    fc.limit = limit ∧
    fc.skip = offset ∧
    (order = none → fc.sort = none) ∧
    (∀ l, order = some l → ∃ sl, fc.sort = some sl ∧
      sl.length = l.length ∧
      ∀ j : Nat, sl[j]? = (l[j]?).map (fun item =>
        (item.1, if item.2 = "desc" then DESCENDING else ASCENDING))) ∧
    find_default ident whereC fields offset order =
      find ident whereC fields 100 offset order := by
  rcases hp : parse_conditions ident (whereArg whereC) "and" with e | w
  · rw [find, hp] at h
    simp [bind, Except.bind] at h
  · rw [find, hp] at h
    simp only [bind, Except.bind, Except.ok.injEq] at h
    subst h
    refine ⟨rfl, rfl, fun ho => by subst ho; rfl, ?_, rfl⟩
    intro l ho
    subst ho
    refine ⟨_, rfl, by simp, ?_⟩
    intro j
    simp [List.getElem?_map]

/-- C6 witness: a concrete two-key ordered query with an offset. -/
theorem find_limit_skip_order_witness :
    ({ filter := [], projection := none, limit := 5, skip := some 2,
       sort := some [("score", DESCENDING), ("name", ASCENDING)] } :
         FindCall).limit = 5 ∧
    ({ filter := [], projection := none, limit := 5, skip := some 2,
       sort := some [("score", DESCENDING), ("name", ASCENDING)] } :
         FindCall).skip = some 2 ∧
    (∃ sl,
      ({ filter := [], projection := none, limit := 5, skip := some 2,
         sort := some [("score", DESCENDING), ("name", ASCENDING)] } :
           FindCall).sort = some sl ∧
      sl.length = ([("score", "desc"), ("name", "asc")] :
        List (String × String)).length ∧
      ∀ j : Nat, sl[j]? =
        ((([("score", "desc"), ("name", "asc")] :
          List (String × String))[j]?).map (fun item =>
            (item.1, if item.2 = "desc" then DESCENDING else ASCENDING)))) := by
  have h := find_limit_skip_order none none none 5 (some 2)
    (some [("score", "desc"), ("name", "asc")])
    { filter := [], projection := none, limit := 5, skip := some 2,
      sort := some [("score", DESCENDING), ("name", ASCENDING)] }
    (by simp [find, parse_conditions, whereArg, pyFalsy, bind, Except.bind,
      DESCENDING, ASCENDING])
  exact ⟨h.1, h.2.1, h.2.2.2.1 [("score", "desc"), ("name", "asc")] rfl⟩

/-- C1 (code bug): `find_one` and `find` hand the caller's `fields` list to
the backend verbatim (`projection=fields`) instead of the projection
`_projection_from_list` builds; with identifier `id` and
fields `["username"]` the backend receives the raw list, while the
projection rules yield the inclusion/exclusion dict
`[("username", 1), ("_id", 0)]` (identifier rewritten, native key
suppressed). -/
theorem find_one_bypasses_projection_builder :
    find_one (some "id") none (some ["username"]) =
      .ok { filter := [], projection := some ["username"] } ∧
    (find (some "id") none (some ["username"]) 100 none none).map
      FindCall.projection = .ok (some ["username"]) ∧
    projection_from_list (some "id") (some ["username"]) =
      [("username", 1), ("_id", 0)] := by
  refine ⟨?_, ?_, by decide⟩
  · simp [find_one, parse_conditions, whereArg, pyFalsy, bind, Except.bind]
  · simp [find, parse_conditions, whereArg, pyFalsy, bind, Except.bind,
      Except.map]

/-- C10 witness: a record lacking the configured identifier field. -/
theorem insert_keyerror_without_native_key_witness :
    insert (some "id") .dup [("username", PyV.vstr "bob")] =
      .error (.keyError "_id") :=
  insert_keyerror_without_native_key (some "id") .dup
    [("username", PyV.vstr "bob")] (by rfl)

end RuneHistory
